import Mathlib

/-!
Verification of the pd_rest_api backend (Go) against its specification.

This file shallowly embeds the parts of the source relevant to the frozen
claims: the preauth-token / roulette engine (`services/roulette_service.go`,
`data/roulette_repo.go`), the bet settlement paths
(`services/bet_service.go`, `services/bet_scheduler.go`,
`data/postgres_repo.go`), the rating ledger and its reconciliation
(`services/rating_service.go`, `data/rating_repo.go`), and the event prize
assignment (`services/event_service.go`).

Conventions of the embedding:
- Go `int`/`int64` are modelled as `Int` (or `Nat` for identifiers and
  counters that are never negative in the program), with explicit `% 2 ^ 32`
  only inside the SHA-256 kernel where 32-bit overflow is semantically
  relevant.
- Go `float64` monetary values and prices are modelled as `Rat`; the single
  float-to-int conversion in the source (`int64(bet.Sum * 1e9)`) is modelled
  as exact truncation toward zero, which agrees with Go on every value the
  program produces.
- `time.Time` values are modelled as `Int` milliseconds since the epoch,
  matching the program's own storage format.
- Database tables are lists of rows; SQL `SELECT ... WHERE` is `List.find?`
  or `List.filter`, `UPDATE ... WHERE` is `List.map` guarded on the key.
- Randomness (`rand.Intn n`) is an explicit oracle argument `choice : Nat`,
  consumed as `choice % n`.
- Fallible operations return `Except`; each error constructor corresponds to
  one `errors.New` / `fmt.Errorf` site in the source.
-/

namespace PDRest

/-! ## SHA-256 (crypto/sha256 as used by `generateTokenFromSessionAndIP`)

A complete executable embedding of SHA-256 over byte lists, with all word
arithmetic carried out on `Nat` modulo `2 ^ 32`. -/

namespace SHA256

def mask32 : Nat := 4294967296

/-- Right rotation of a 32-bit word. -/
def rotr (n x : Nat) : Nat := (x / 2 ^ n + x % 2 ^ n * 2 ^ (32 - n)) % mask32

/-- Logical right shift. -/
def shr (n x : Nat) : Nat := x / 2 ^ n

def bigSigma0 (x : Nat) : Nat := Nat.xor (Nat.xor (rotr 2 x) (rotr 13 x)) (rotr 22 x)

def bigSigma1 (x : Nat) : Nat := Nat.xor (Nat.xor (rotr 6 x) (rotr 11 x)) (rotr 25 x)

def smallSigma0 (x : Nat) : Nat := Nat.xor (Nat.xor (rotr 7 x) (rotr 18 x)) (shr 3 x)

def smallSigma1 (x : Nat) : Nat := Nat.xor (Nat.xor (rotr 17 x) (rotr 19 x)) (shr 10 x)

/-- `Ch(e,f,g) = (e AND f) XOR ((NOT e) AND g)`; NOT is complement in 32 bits. -/
def ch (e f g : Nat) : Nat := Nat.xor (Nat.land e f) (Nat.land (Nat.xor e (mask32 - 1)) g)

def maj (a b c : Nat) : Nat := Nat.xor (Nat.xor (Nat.land a b) (Nat.land a c)) (Nat.land b c)

/-- The 64 SHA-256 round constants (FIPS 180-4), written in decimal. -/
def roundConsts : List Nat :=
  [1116352408, 1899447441, 3049323471, 3921009573, 961987163,
   1508970993, 2453635748, 2870763221, 3624381080, 310598401,
   607225278, 1426881987, 1925078388, 2162078206, 2614888103,
   3248222580, 3835390401, 4022224774, 264347078, 604807628,
   770255983, 1249150122, 1555081692, 1996064986, 2554220882,
   2821834349, 2952996808, 3210313671, 3336571891, 3584528711,
   113926993, 338241895, 666307205, 773529912, 1294757372,
   1396182291, 1695183700, 1986661051, 2177026350, 2456956037,
   2730485921, 2820302411, 3259730800, 3345764771, 3516065817,
   3600352804, 4094571909, 275423344, 430227734, 506948616,
   659060556, 883997877, 958139571, 1322822218, 1537002063,
   1747873779, 1955562222, 2024104815, 2227730452, 2361852424,
   2428436474, 2756734187, 3204031479, 3329325298]

/-- The running hash state: eight 32-bit words. -/
structure Hash8 where
  a : Nat
  b : Nat
  c : Nat
  d : Nat
  e : Nat
  f : Nat
  g : Nat
  h : Nat

def initH : Hash8 :=
  ⟨1779033703, 3144134277, 1013904242, 2773480762, 1359893119, 2600822924, 528734635, 1541459225⟩

/-- Big-endian byte expansion, most significant byte first. -/
def beBytes : Nat → Nat → List Nat
  | 0, _ => []
  | n + 1, x => beBytes n (x / 256) ++ [x % 256]

/-- SHA-256 padding: append `0x80`, zero bytes to reach 56 mod 64, then the
message bit length as 8 big-endian bytes. -/
def padBytes (msg : List Nat) : List Nat :=
  let z := (64 - (msg.length + 9) % 64) % 64
  msg ++ [0x80] ++ List.replicate z 0 ++ beBytes 8 (msg.length * 8)

/-- Group a chunk's bytes into big-endian 32-bit words. -/
def toWords : List Nat → List Nat
  | b0 :: b1 :: b2 :: b3 :: rest => (((b0 * 256 + b1) * 256 + b2) * 256 + b3) :: toWords rest
  | _ => []

/-- Extend the first 16 schedule words to 64. -/
def schedule (w16 : List Nat) : List Nat :=
  (List.range 48).foldl
    (fun w _ =>
      let i := w.length
      w ++ [(smallSigma1 (w.getD (i - 2) 0) + w.getD (i - 7) 0 +
             smallSigma0 (w.getD (i - 15) 0) + w.getD (i - 16) 0) % mask32])
    w16

/-- One compression round; the pair carries `(k_i, w_i)`. -/
def round (st : Hash8) (kw : Nat × Nat) : Hash8 :=
  let t1 := (st.h + bigSigma1 st.e + ch st.e st.f st.g + kw.1 + kw.2) % mask32
  let t2 := (bigSigma0 st.a + maj st.a st.b st.c) % mask32
  ⟨(t1 + t2) % mask32, st.a, st.b, st.c, (st.d + t1) % mask32, st.e, st.f, st.g⟩

/-- Compress one 64-byte chunk into the running state. -/
def compress (st : Hash8) (chunk : List Nat) : Hash8 :=
  let w := schedule (toWords chunk)
  let fin := (roundConsts.zip w).foldl round st
  ⟨(st.a + fin.a) % mask32, (st.b + fin.b) % mask32, (st.c + fin.c) % mask32,
   (st.d + fin.d) % mask32, (st.e + fin.e) % mask32, (st.f + fin.f) % mask32,
   (st.g + fin.g) % mask32, (st.h + fin.h) % mask32⟩

/-- Split a byte list into 64-byte chunks. The fuel argument only bounds the
recursion (any fuel at least `l.length` yields every chunk) and keeps the
function structurally recursive. -/
def chunksGo : Nat → List Nat → List (List Nat)
  | 0, _ => []
  | _, [] => []
  | fuel + 1, x :: xs => (x :: xs).take 64 :: chunksGo fuel ((x :: xs).drop 64)

def chunks (l : List Nat) : List (List Nat) :=
  chunksGo l.length l

/-- The 32-byte digest, big-endian per state word. -/
def digestBytes (st : Hash8) : List Nat :=
  beBytes 4 st.a ++ beBytes 4 st.b ++ beBytes 4 st.c ++ beBytes 4 st.d ++
  beBytes 4 st.e ++ beBytes 4 st.f ++ beBytes 4 st.g ++ beBytes 4 st.h

/-- `sha256.Sum256` over a byte list. -/
def sha256 (msg : List Nat) : List Nat :=
  digestBytes ((chunks (padBytes msg)).foldl compress initH)

end SHA256

/-! ### Hex encoding (`encoding/hex.EncodeToString`) -/

def hexChars : List Char :=
  "0123456789abcdef".data

/-- Two lowercase hex digits for one byte, high nibble first. -/
def hexByte (b : Nat) : List Char :=
  [hexChars.getD (b % 256 / 16) '0', hexChars.getD (b % 16) '0']

def hexEncode (bytes : List Nat) : String :=
  String.mk (bytes.flatMap hexByte)

/-- UTF-8 bytes of a string, as `Nat`s (Go's `[]byte(data)` conversion). -/
def utf8Bytes (s : String) : List Nat :=
  (s.data.flatMap String.utf8EncodeChar).map UInt8.toNat

/-- `generateTokenFromSessionAndIP` from `services/roulette_service.go`:
lowercase hex of the SHA-256 of `"<session_id>:<ip>"`. -/
def generateTokenFromSessionAndIP (sessionID ipAddress : String) : String :=
  hexEncode (SHA256.sha256 (utf8Bytes (sessionID ++ ":" ++ ipAddress)))

deriving instance DecidableEq for Except

/-! ## Domain records (`internal/domain`)

Rows of the persisted tables, with the fields the claims touch. Timestamps
are `Int` milliseconds; monetary `float64` fields are `Rat`. -/

/-- `domain.PrizeValue` (`prize_value.go`). -/
structure PrizeValue where
  id : Nat
  eventId : String
  value : Int
  label : String
  segmentId : Option String
deriving DecidableEq

/-- `domain.Prize` (`prize.go`). -/
structure Prize where
  id : Nat
  eventId : Option String
  userId : Option String
  prizeValueId : Option Nat
  preauthTokenId : Option Nat
  rouletteId : Option Nat
  prizeValue : String
  prizeType : String
  awardedAt : Int
deriving DecidableEq

/-- `domain.Bet` (`bet.go`). `sum`, `openPrice`, `closePrice` are Go
`float64`, modelled exactly as rationals; `openTime`/`closeTime` are
`time.Time`, modelled as epoch milliseconds. -/
structure Bet where
  id : Nat
  userId : String
  side : String
  sum : Rat
  pair : String
  timeframe : Int
  openPrice : Rat
  closePrice : Option Rat
  openTime : Int
  closeTime : Option Int
deriving DecidableEq

/-! ## Rating ledger (`data/rating_repo.go`, `services/rating_service.go`)

The `rating` table variant the reconciliation service writes through:
`(user_uuid, points, source, description, created_at)`. -/

/-- `domain.RatingSource`. -/
inductive RatingSource
  | fromEvent
  | betBonus
  | promoBonus
  | serviceBonus
deriving DecidableEq

/-- One `rating` row. -/
structure RatingRow where
  userUUID : String
  points : Int
  source : RatingSource
  description : String
  createdAt : Int
deriving DecidableEq

/-- `PostgresRatingRepository.AddPoints`: returns the table unchanged (and no
error) when `points <= 0`, otherwise inserts one row stamped `now`. -/
def addPoints (rows : List RatingRow) (userUUID : String) (points : Int)
    (source : RatingSource) (description : String) (now : Int) : List RatingRow :=
  if points ≤ 0 then rows
  else rows ++ [⟨userUUID, points, source, description, now⟩]

/-- `PostgresRatingRepository.GetMaxCreatedAt`: `SELECT MAX(created_at) ...
WHERE user_uuid = $1`, `NULL` on an empty set. -/
def getMaxCreatedAt (rows : List RatingRow) (userUUID : String) : Option Int :=
  ((rows.filter (fun r => r.userUUID = userUUID)).map (fun r => r.createdAt)).max?

/-- `SELECT SUM(points) ... WHERE user_uuid = $1` (the user's ledger total). -/
def totalPoints (rows : List RatingRow) (userUUID : String) : Int :=
  ((rows.filter (fun r => r.userUUID = userUUID)).map (fun r => r.points)).sum

/-- Decimal digit run of Go's `strconv.ParseInt`: fails on an empty run or a
non-digit character. -/
def parseDigitsGo (cs : List Char) : Option Nat :=
  if cs.isEmpty then none
  else
    cs.foldl
      (fun acc c =>
        acc.bind (fun n => if c.isDigit then some (n * 10 + (c.toNat - 48)) else none))
      (some 0)

/-- `strconv.ParseInt(s, 10, 64)`: optional sign, digits, 64-bit range. -/
def parseIntGo (s : String) : Option Int :=
  match s.data with
  | '+' :: rest =>
      (parseDigitsGo rest).bind
        (fun n => if n ≤ 9223372036854775807 then some (n : Int) else none)
  | '-' :: rest =>
      (parseDigitsGo rest).bind
        (fun n => if n ≤ 9223372036854775808 then some (-(n : Int)) else none)
  | _ =>
      (parseDigitsGo s.data).bind
        (fun n => if n ≤ 9223372036854775807 then some (n : Int) else none)

/-- `RatingService.parsePrizeValueToPoints`: trim, reject empty, parse as a
base-10 integer. -/
def parsePrizeValueToPoints (prizeValue : String) : Option Int :=
  let t := prizeValue.trim
  if t = "" then none else parseIntGo t

/-- The loop body of `RatingService.processPrizes`. -/
def processPrizesStep (maxCreatedAt : Option Int) (total : Int) (p : Prize) : Int :=
  let skip : Bool := match maxCreatedAt with
    | some m => decide (p.awardedAt ≤ m)
    | none => false
  if skip then total
  else match parsePrizeValueToPoints p.prizeValue with
    | none => total
    | some pts => total + pts

/-- `RatingService.processPrizes`: total points of prizes awarded after the
cursor; unparseable prize values are skipped. -/
def processPrizes (prizes : List Prize) (maxCreatedAt : Option Int) : Int :=
  prizes.foldl (processPrizesStep maxCreatedAt) 0

/-- Go `int64(bet.Sum * 1e9)`: truncation toward zero of `sum · 10⁹`. For
`sum = n/d` (in lowest terms, `d > 0`) this equals `tdiv (n · 10⁹) d`, and
`Int.tdiv` is exactly division truncated toward zero. -/
def betPointsOf (sum : Rat) : Int :=
  Int.tdiv (sum.num * 1000000000) (sum.den : Int)

/-- The loop body of `RatingService.processBets`. -/
def processBetsStep (maxCreatedAt : Option Int) (total : Int) (b : Bet) : Int :=
  let skip : Bool := match maxCreatedAt, b.closeTime with
    | some m, some ct => decide (ct ≤ m)
    | _, _ => false
  if skip then total else total + betPointsOf b.sum

/-- `RatingService.processBets`: each winning bet closed after the cursor
contributes `int64(bet.Sum * 1e9)` points. -/
def processBets (bets : List Bet) (maxCreatedAt : Option Int) : Int :=
  bets.foldl (processBetsStep maxCreatedAt) 0

/-- `PostgresPrizeRepository.GetPrizesByUserID` (`WHERE user_uuid = $1`). -/
def getPrizesByUserID (prizes : List Prize) (userUUID : String) : List Prize :=
  prizes.filter (fun p => p.userId = some userUUID)

/-- `PostgresBetRepository.GetWinningBetsByUser`: the user's bets with a close
price and a winning side. (The source orders by `close_time DESC`; the
reconciliation below only sums over the list, so the order is irrelevant.) -/
def getWinningBetsByUser (bets : List Bet) (userUUID : String) : List Bet :=
  bets.filter
    (fun b =>
      b.userId == userUUID &&
      match b.closePrice with
      | some cp =>
          (b.side == "pump" && decide (b.openPrice < cp)) ||
          (b.side == "dump" && decide (cp < b.openPrice))
      | none => false)

/-- The `fmt.Sprintf` description of an aggregate reconciliation row. -/
def reconciliationDescription (total prizePoints betPoints : Int) : String :=
  "Prizes and winning bets: " ++ toString total ++ " points (prizes: " ++
    toString prizePoints ++ ", bets: " ++ toString betPoints ++ ")"

/-- `RatingService.collectPrizesAndBets` (one reconciliation run for one user
at wall time `now`): read the cursor, total the user's new prizes and winning
bets, and append a single aggregate `bet_bonus` row when the parts are
positive. -/
def collectPrizesAndBets (rows : List RatingRow) (userUUID : String)
    (prizes : List Prize) (bets : List Bet) (now : Int) : List RatingRow :=
  let maxCreatedAt := getMaxCreatedAt rows userUUID
  let userPrizes := getPrizesByUserID prizes userUUID
  let userBets := getWinningBetsByUser bets userUUID
  let prizePoints := processPrizes userPrizes maxCreatedAt
  let betPoints := processBets userBets maxCreatedAt
  if prizePoints > 0 ∨ betPoints > 0 then
    let total := prizePoints + betPoints
    addPoints rows userUUID total RatingSource.betBonus
      (reconciliationDescription total prizePoints betPoints) now
  else rows

/-- One call to `AddPoints`, for stating ledger invariants over arbitrary
operation sequences. -/
structure AddPointsCall where
  userUUID : String
  points : Int
  source : RatingSource
  description : String
  now : Int

def applyAddPoints (rows : List RatingRow) (calls : List AddPointsCall) : List RatingRow :=
  calls.foldl
    (fun rs c => addPoints rs c.userUUID c.points c.source c.description c.now) rows

/-! ## Bet settlement (`data/postgres_repo.go`, `services/bet_scheduler.go`,
`services/bet_service.go`)

Both settlement paths write through `UpdateBetClosePrice`, whose SQL is
`UPDATE bets SET close_price = $1, close_time = $2 WHERE id = $3` with no
guard on `close_price IS NULL`. The price fetched from the ticker is an
oracle argument (`Option Rat`: `none` models a fetch error, on which both
paths return without writing). -/

/-- `PostgresBetRepository.UpdateBetClosePrice`. -/
def updateBetClosePrice (bets : List Bet) (betID : Nat) (closePrice : Rat)
    (closeTime : Int) : List Bet :=
  bets.map
    (fun b =>
      if b.id = betID then { b with closePrice := some closePrice, closeTime := some closeTime }
      else b)

/-- `BetScheduler.closeBet`: fetch the price and write it with
`closeTime := time.Now()` (the wall clock at settlement, `now`). There is no
re-read of the bet and no check that `close_price` is still unset. -/
def schedulerCloseBet (bets : List Bet) (betID : Nat) (fetchedPrice : Option Rat)
    (now : Int) : List Bet :=
  match fetchedPrice with
  | none => bets
  | some price => updateBetClosePrice bets betID price now

/-- The opportunistic settlement inside `BetService.GetBetStatus`: when the
timeframe has passed and `closePrice` is still null, fetch a price and write
it with `closeTime := expectedCloseTime = openTime + timeframe` (seconds,
stored as milliseconds). -/
def getBetStatusSettle (bets : List Bet) (betID : Nat) (userUUID : String)
    (fetchedPrice : Option Rat) (now : Int) : List Bet :=
  match bets.find? (fun b => b.id == betID && b.userId == userUUID) with
  | none => bets
  | some b =>
    let expectedCloseTime := b.openTime + b.timeframe * 1000
    if expectedCloseTime < now ∧ b.closePrice = none then
      match fetchedPrice with
      | none => bets
      | some price => updateBetClosePrice bets betID price expectedCloseTime
    else bets

/-- One settlement event, for stating the claim over arbitrary interleavings
of the two paths. -/
inductive SettleOp
  | sched (betID : Nat) (fetchedPrice : Option Rat) (now : Int)
  | status (betID : Nat) (userUUID : String) (fetchedPrice : Option Rat) (now : Int)

def applySettleOp (bets : List Bet) : SettleOp → List Bet
  | .sched betID price now => schedulerCloseBet bets betID price now
  | .status betID user price now => getBetStatusSettle bets betID user price now

def applySettleOps (bets : List Bet) (ops : List SettleOp) : List Bet :=
  ops.foldl applySettleOp bets

/-! ## Event prize assignment (`services/event_service.go`,
`data/event_repo.go`, and the rating-table variant carrying
`got_prize_id`/`bet_id` that `GetBetPointsLeaderboard` aggregates). -/

/-- A row of the `rating` table in the schema variant with source references
(`got_prize_id`, `bet_id`), which the leaderboard queries filter on. -/
structure BetRatingRow where
  userUUID : String
  points : Int
  gotPrizeId : Option Nat
  betId : Option Nat
  description : String
  createdAt : Int
deriving DecidableEq

/-- `domain.Event` restricted to the fields the prize-status path reads. -/
structure Event where
  id : String
  startTime : Int
  deadline : Int
  tags : String
deriving DecidableEq

/-- A `user_events` row. -/
structure UserEventRow where
  userUUID : String
  eventId : String
  hasPriseStatus : Option Bool
  prizeValueId : Option Nat
  prizeTakenStatus : Bool
deriving DecidableEq

/-- Lexicographic order on char lists by code point; on ASCII identifiers
this is exactly the `ORDER BY ... ASC` collation the queries rely on. -/
def charListLe : List Char → List Char → Bool
  | c :: cs, d :: ds =>
    if c.toNat < d.toNat then true
    else if d.toNat < c.toNat then false
    else charListLe cs ds
  | [], _ => true
  | _, _ => false

def strLe (a b : String) : Bool := charListLe a.data b.data

/-- `PostgresRatingRepository.GetBetPointsLeaderboard`: sum bet-sourced points
per user over the half-open window, rank by net points descending with user
ascending as tie-break, and keep the first `limit` entries. -/
def getBetPointsLeaderboard (rows : List BetRatingRow) (startMs endMs : Int)
    (limit : Nat) : List (String × Int) :=
  let filtered := rows.filter
    (fun r => r.betId.isSome && r.gotPrizeId == none &&
      decide (startMs ≤ r.createdAt) && decide (r.createdAt < endMs))
  let users := (filtered.map (fun r => r.userUUID)).dedup
  let entries := users.map
    (fun u => (u, ((filtered.filter (fun r => r.userUUID == u)).map (fun r => r.points)).sum))
  (List.insertionSort (fun a b => b.2 < a.2 ∨ (a.2 = b.2 ∧ strLe a.1 b.1 = true))
    entries).take limit

/-- `sort.Slice(prizeValue, value descending)` from
`UpdateUserEventPrizeStatus` (modelled as a stable sort). -/
def sortPrizeValuesDesc (pvs : List PrizeValue) : List PrizeValue :=
  List.insertionSort (fun a b => b.value ≤ a.value) pvs

inductive EvErr
  | userRequired
  | eventRequired
  | eventNotFound
  | notFinished
  | userEventNotFound
  | prizeValuesNotFound
deriving DecidableEq

/-- The `for idx, entry := range leaderboard` loop of
`UpdateUserEventPrizeStatus`: find the user, then pick the prize value at the
user's leaderboard position (descending value order), or none when the
position is beyond the prize list. -/
def findUserPrizeLoop (userUUID : String) (prizeValues : List PrizeValue) :
    List (String × Int) → Nat → Except EvErr (Bool × Option Nat)
  | [], _ => .ok (false, none)
  | entry :: rest, idx =>
    if entry.1 ≠ userUUID then findUserPrizeLoop userUUID prizeValues rest (idx + 1)
    else if prizeValues.length = 0 then .error .prizeValuesNotFound
    else
      let sorted := sortPrizeValuesDesc prizeValues
      if sorted.length ≤ idx then .ok (true, none)
      else .ok (true, (sorted.get? idx).map (fun pv => pv.id))

/-- `EventService.UpdateUserEventPrizeStatus`: after the deadline and while
`has_prise_status` is still unresolved, decide the prize from the top-3 bet
points leaderboard of the event window and write
`(has_prise_status, prize_value_id)`. Returns the status string and the
updated `user_events` table. -/
def updateUserEventPrizeStatus (userUUID eventId : String) (events : List Event)
    (userEvents : List UserEventRow) (rows : List BetRatingRow)
    (prizeValues : List PrizeValue) (now : Int) :
    Except EvErr (String × List UserEventRow) :=
  if userUUID = "" then .error .userRequired
  else if eventId = "" then .error .eventRequired
  else
    match events.find? (fun e => e.id == eventId) with
    | none => .error .eventNotFound
    | some event =>
      if now < event.deadline then .error .notFinished
      else
        match userEvents.find? (fun ue => ue.userUUID == userUUID && ue.eventId == eventId) with
        | none => .error .userEventNotFound
        | some ue =>
          if ue.hasPriseStatus ≠ none then .ok ("already_defined", userEvents)
          else
            match findUserPrizeLoop userUUID prizeValues
                (getBetPointsLeaderboard rows event.startTime event.deadline 3) 0 with
            | .error e => .error e
            | .ok (hasPrise, prizeValueID) =>
              .ok ("updated", userEvents.map
                (fun r =>
                  if r.userUUID == userUUID && r.eventId == eventId
                      && r.hasPriseStatus == none then
                    { r with hasPriseStatus := some hasPrise, prizeValueId := prizeValueID }
                  else r))

/-- The membership rule the claim states, written from the spec's words:
the user has a prize exactly when they appear in the top-K of the leaderboard
with `K = |prize_values|`. -/
def specHasPriseTopK (userUUID : String) (rows : List BetRatingRow)
    (startMs endMs : Int) (prizeValues : List PrizeValue) : Bool :=
  (getBetPointsLeaderboard rows startMs endMs prizeValues.length).any
    (fun e => e.1 == userUUID)

/-! ## Roulette engine (`services/roulette_service.go`, `data/roulette_repo.go`)

State machine over the `roulette_config`, `roulette_preauth_token`,
`roulette`, `prize_values`, `got_prizes` and `users` tables. Generated ids
come from explicit counters; generated user UUIDs from a counter-derived
string. -/

/-- `domain.RouletteConfig`. -/
structure RouletteConfig where
  id : Nat
  rtype : String
  eventId : String
  maxSpins : Nat
  isActive : Bool
deriving DecidableEq

/-- `domain.RoulettePreauthToken`. -/
structure PreauthToken where
  id : Nat
  token : String
  userUUID : Option String
  configId : Nat
  isUsed : Bool
  expiresAt : Int
deriving DecidableEq

/-- `domain.Roulette`. The four tracked `spin_result` map keys become four
optional fields. -/
structure Roulette where
  id : Nat
  configId : Nat
  preauthTokenId : Nat
  spinNumber : Nat
  prize : Option String
  prizeTaken : Bool
  srPrizeValueId : Option Nat
  srPrizeValue : Option Int
  srPrizeLabel : Option String
  srSegmentId : Option String
  prizeTakenAt : Option Int
deriving DecidableEq

structure RouState where
  configs : List RouletteConfig
  tokens : List PreauthToken
  roulettes : List Roulette
  prizeValues : List PrizeValue
  prizes : List Prize
  /-- The `rating` ledger. `RouletteService` holds no rating repository, so no
  roulette operation below ever reads or writes this table. -/
  ratingRows : List RatingRow
  /-- `users` rows as (session_id, user_uuid) pairs. -/
  users : List (String × String)
  /-- `all_events.reward` values per event id (used by `determinePrize`). -/
  eventRewards : List (String × List String)
  nextTokenId : Nat
  nextRouletteId : Nat
  nextPrizeId : Nat
  nextUserNum : Nat
deriving DecidableEq

inductive RouErr
  | sessionRequired
  | tokenNotFound
  | tokenUsed
  | tokenExpired
  | configNotFoundOrInactive
  | invalidRouletteId
  | authRequired
  | prizeAlreadyTakenNoSpins
  | maxSpinsReached
  | noPrizes
  | mustSpinFirst
  | prizeTakenButMissing
  | incompleteSpins
  | userNotFoundBySession
  | userRequired
  | linkTokenNotFound
  | linkUniqueViolation
deriving DecidableEq

/-- Headers the HTTP layer passes down via the request context. -/
structure ReqCtx where
  sessionId : Option String
  ipAddress : Option String
  authHeader : String

/-- `GetPreauthToken` (repo): `SELECT ... WHERE token = $1`. -/
def getPreauthTokenRow (s : RouState) (token : String) : Option PreauthToken :=
  s.tokens.find? (fun t => t.token == token)

/-- `ValidatePreauthToken` (repo): reject missing, used and expired tokens. -/
def validatePreauthToken (s : RouState) (token : String) (now : Int) :
    Except RouErr PreauthToken :=
  match getPreauthTokenRow s token with
  | none => .error .tokenNotFound
  | some tok =>
    if tok.isUsed then .error .tokenUsed
    else if tok.expiresAt < now then .error .tokenExpired
    else .ok tok

/-- `GetRouletteConfigByID` (repo). -/
def getRouletteConfigByID (s : RouState) (id : Nat) : Option RouletteConfig :=
  s.configs.find? (fun c => c.id == id)

/-- `GetRouletteConfigByType` (repo): active config for (type, event), highest
id first (`ORDER BY id DESC LIMIT 1`). -/
def getRouletteConfigByType (s : RouState) (rtype eventId : String) :
    Option RouletteConfig :=
  (s.configs.filter (fun c => c.rtype == rtype && c.eventId == eventId && c.isActive)).foldl
    (fun best c =>
      match best with
      | none => some c
      | some b => if b.id ≤ c.id then some c else some b)
    none

/-- `GetRouletteByPreauthToken` (repo): the unique session row of a token. -/
def getRouletteByPreauthToken (s : RouState) (preauthTokenId : Nat) : Option Roulette :=
  s.roulettes.find? (fun r => r.preauthTokenId == preauthTokenId)

/-- `MarkPreauthTokenAsUsed` (repo). -/
def markPreauthTokenAsUsed (s : RouState) (tokenId : Nat) : RouState :=
  let newTokens :=
    s.tokens.map (fun t => if t.id == tokenId then { t with isUsed := true } else t)
  { s with tokens := newTokens }

/-- `UpdateRoulette` (repo). -/
def updateRouletteRow (s : RouState) (r : Roulette) : RouState :=
  { s with roulettes := s.roulettes.map (fun x => if x.id == r.id then r else x) }

/-- `TakePrize` (repo): `UPDATE roulette SET prize = $2, prize_taken = TRUE,
prize_taken_at = $3 WHERE id = $1`, stamped with the wall clock. -/
def takePrizeRow (s : RouState) (rouletteId : Nat) (prize : String) (now : Int) : RouState :=
  let newRoulettes :=
    s.roulettes.map
      (fun r =>
        if r.id == rouletteId then
          { r with prize := some prize, prizeTaken := true, prizeTakenAt := some now }
        else r)
  { s with roulettes := newRoulettes }

/-- `GetPrizeValuesByEventID` (repo): `WHERE event_id = $1 ORDER BY id ASC`. -/
def getPrizeValuesByEventID (s : RouState) (eventId : String) : List PrizeValue :=
  List.insertionSort (fun a b => a.id ≤ b.id)
    (s.prizeValues.filter (fun pv => pv.eventId == eventId))

/-- `GetPrizeValueByID` (repo). -/
def getPrizeValueByID (s : RouState) (id : Nat) : Option PrizeValue :=
  s.prizeValues.find? (fun pv => pv.id == id)

/-- `CreateOrUpdateUserBySession` (user repo): ensure a user row exists for the
session; the generated UUID is modelled by a counter. -/
def createOrUpdateUserBySession (s : RouState) (sessionId : String) : RouState :=
  if (s.users.find? (fun u => u.1 == sessionId)).isSome then s
  else
    { s with
      users := s.users ++ [(sessionId, "auto-user-" ++ toString s.nextUserNum)],
      nextUserNum := s.nextUserNum + 1 }

/-- `GetUserBySessionID` (user repo). -/
def getUserBySessionID (s : RouState) (sessionId : String) : Option String :=
  (s.users.find? (fun u => u.1 == sessionId)).map (fun u => u.2)

/-- The ten-year expiry the service stamps on tokens it creates. -/
def tenYearsMs : Int := 315360000000

/-- The common get-or-create block of `Spin`/`TakePrize`/`GetPreauthToken` for
the session+IP path: derive the deterministic token, reuse the stored row, or
create one against the active `on_start`/`startup` config. -/
def resolveOrCreateToken (s : RouState) (sessionId ipAddress : String) (now : Int) :
    Except RouErr (PreauthToken × RouState) :=
  let token := generateTokenFromSessionAndIP sessionId ipAddress
  match getPreauthTokenRow s token with
  | some tok => .ok (tok, s)
  | none =>
    match getRouletteConfigByType s "on_start" "startup" with
    | none => .error .configNotFoundOrInactive
    | some config =>
      let newTok : PreauthToken :=
        { id := s.nextTokenId, token := token, userUUID := none,
          configId := config.id, isUsed := false, expiresAt := now + tenYearsMs }
      .ok (newTok, { s with tokens := s.tokens ++ [newTok], nextTokenId := s.nextTokenId + 1 })

/-- The spin response (`domain.SpinResponse`), with the reward amount as an
exact rational. -/
structure SpinRespM where
  segmentId : String
  label : String
  spinsLeft : Nat
  rewardType : String
  rewardAmount : Rat
deriving DecidableEq

/-- The token-resolution step shared by `Spin` and `TakePrize`: validate a
provided token, or derive / create one from the session and IP. -/
def resolveSpinToken (s : RouState) (preauthTokenStr : String) (ctx : ReqCtx)
    (now : Int) : Except RouErr (PreauthToken × RouState) :=
  if preauthTokenStr = "" then
    match ctx.sessionId, ctx.ipAddress with
    | some sid, some ip => resolveOrCreateToken s sid ip now
    | _, _ => .error .sessionRequired
  else
    match validatePreauthToken s preauthTokenStr now with
    | .error e => .error e
    | .ok t => .ok (t, s)

/-- The create-or-increment step of `Spin` on the session row. -/
def spinAdvanceRoulette (s : RouState) (config : RouletteConfig)
    (preauthToken : PreauthToken) : Except RouErr (Roulette × RouState) :=
  match getRouletteByPreauthToken s preauthToken.id with
  | some r =>
    if r.prizeTaken then .error .prizeAlreadyTakenNoSpins
    else if config.maxSpins ≤ r.spinNumber then .error .maxSpinsReached
    else
      let r2 := { r with spinNumber := r.spinNumber + 1 }
      .ok (r2, updateRouletteRow s r2)
  | none =>
    let r : Roulette :=
      { id := s.nextRouletteId, configId := config.id,
        preauthTokenId := preauthToken.id, spinNumber := 1, prize := none,
        prizeTaken := false, srPrizeValueId := none, srPrizeValue := none,
        srPrizeLabel := none, srSegmentId := none, prizeTakenAt := none }
    .ok (r, { s with roulettes := s.roulettes ++ [r], nextRouletteId := s.nextRouletteId + 1 })

/-- `RouletteService.Spin` after token resolution. -/
def spinCore (s : RouState) (preauthToken : PreauthToken) (reqRouletteId : Nat)
    (ctx : ReqCtx) (choice : Nat) : Except RouErr (SpinRespM × RouState) :=
  match getRouletteConfigByID s preauthToken.configId with
  | none => .error .configNotFoundOrInactive
  | some config =>
    if ¬ config.isActive then .error .configNotFoundOrInactive
    else if reqRouletteId ≠ 0 ∧ reqRouletteId ≠ config.id then .error .invalidRouletteId
    else if config.rtype = "during_event" ∧ ctx.authHeader.trim = "" then .error .authRequired
    else
      match spinAdvanceRoulette s config preauthToken with
      | .error e => .error e
      | .ok (roulette, s) =>
        let s := markPreauthTokenAsUsed s preauthToken.id
        let prizeValues := getPrizeValuesByEventID s config.eventId
        if h : prizeValues.length = 0 then .error .noPrizes
        else
          let selected := prizeValues.get
            ⟨choice % prizeValues.length, Nat.mod_lt _ (Nat.pos_of_ne_zero h)⟩
          let roulette2 :=
            { roulette with
              srPrizeValueId := some selected.id,
              srPrizeValue := some selected.value,
              srPrizeLabel := some selected.label,
              srSegmentId :=
                match selected.segmentId with
                | some sg => some sg
                | none => roulette.srSegmentId,
              prize := some (toString selected.value) }
          let s := updateRouletteRow s roulette2
          .ok ({ segmentId := selected.segmentId.getD "1",
                 label := selected.label,
                 spinsLeft := config.maxSpins - roulette2.spinNumber,
                 rewardType := "eth",
                 rewardAmount := (selected.value : Rat) / 1000000000 }, s)

/-- `RouletteService.Spin`. `choice` is the oracle for
`rand.Intn(len(prizeValues))`, consumed modulo the list length. -/
def spin (s : RouState) (preauthTokenStr : String) (reqRouletteId : Nat)
    (ctx : ReqCtx) (now : Int) (choice : Nat) : Except RouErr (SpinRespM × RouState) :=
  match resolveSpinToken s preauthTokenStr ctx now with
  | .error e => .error e
  | .ok (preauthToken, s) => spinCore s preauthToken reqRouletteId ctx choice

/-- `domain.TakePrizeResponse`; an absent `preauth_token` field is `""`. -/
structure TakePrizeRespM where
  success : Bool
  prize : String
  message : String
  preauthToken : String
deriving DecidableEq

/-- `RouletteService.determinePrize`: event-reward fallback for `during_event`
roulettes, otherwise a fixed default. -/
def determinePrize (s : RouState) (config : RouletteConfig) : String :=
  if config.rtype = "during_event" then
    match s.eventRewards.find? (fun er => er.1 == config.eventId) with
    | some (_, v :: _) => v
    | _ => "Default Prize"
  else "Default Prize"

/-- The prize-string determination of `TakePrize` (the stored `prize` field,
with the `spin_result`, prize-value-id and `determinePrize` fallbacks). The
result is the prize string and the optional prize value id. -/
def takePrizeValueOf (s : RouState) (config : RouletteConfig) (roulette : Roulette) :
    String × Option Nat :=
  let fallbackValue : String :=
    match roulette.srPrizeValue with
    | some v => toString v
    | none => ""
  let (pv0, pvID) :=
    match roulette.prize with
    | some p =>
      if p ≠ "" then (p, none) else (fallbackValue, roulette.srPrizeValueId)
    | none => (fallbackValue, roulette.srPrizeValueId)
  let pv1 :=
    if pv0 = "" then
      match pvID with
      | some id =>
        match getPrizeValueByID s id with
        | some pv => toString pv.value
        | none => pv0
      | none => pv0
    else pv0
  (if pv1 = "" then determinePrize s config else pv1, pvID)

/-- The user-id resolution of `TakePrize`: the linked user, or the user found
by session id. -/
def takePrizeUserOf (s : RouState) (preauthToken : PreauthToken) (ctx : ReqCtx) :
    Except RouErr String :=
  match preauthToken.userUUID with
  | some u => .ok u
  | none =>
    match ctx.sessionId with
    | some sid =>
      match getUserBySessionID s sid with
      | some uid => .ok uid
      | none => .error .userNotFoundBySession
    | none => .error .userRequired

/-- `RouletteService.TakePrize` after token resolution; `wasUnregistered`
records whether the token had no linked user at entry. -/
def takePrizeCore (s : RouState) (preauthToken : PreauthToken)
    (wasUnregistered : Bool) (reqRouletteId : Nat) (ctx : ReqCtx) (now : Int) :
    Except RouErr (TakePrizeRespM × RouState) :=
  match getRouletteConfigByID s preauthToken.configId with
  | none => .error .configNotFoundOrInactive
  | some config =>
    if ¬ config.isActive then .error .configNotFoundOrInactive
    else if reqRouletteId ≠ 0 ∧ reqRouletteId ≠ config.id then .error .invalidRouletteId
    else if config.rtype = "during_event" ∧ ctx.authHeader.trim = "" then .error .authRequired
    else
      match getRouletteByPreauthToken s preauthToken.id with
      | none => .error .mustSpinFirst
      | some roulette =>
        if roulette.prizeTaken then
          match roulette.prize with
          | some p =>
            .ok ({ success := true, prize := p, message := "Prize already taken",
                   preauthToken := if wasUnregistered then preauthToken.token else "" }, s)
          | none => .error .prizeTakenButMissing
        else if roulette.spinNumber < config.maxSpins then .error .incompleteSpins
        else
          let pvp := takePrizeValueOf s config roulette
          match takePrizeUserOf s preauthToken ctx with
          | .error e => .error e
          | .ok userID =>
            let prize : Prize :=
              { id := s.nextPrizeId, eventId := some config.eventId,
                userId := some userID, prizeValueId := pvp.2,
                preauthTokenId := some preauthToken.id,
                rouletteId := some roulette.id, prizeValue := pvp.1,
                prizeType := if config.rtype = "during_event" then "roulette_during_event"
                  else "roulette_on_start",
                awardedAt := now }
            let s := { s with prizes := s.prizes ++ [prize], nextPrizeId := s.nextPrizeId + 1 }
            let s := takePrizeRow s roulette.id pvp.1 now
            let s := markPreauthTokenAsUsed s preauthToken.id
            .ok ({ success := true, prize := pvp.1, message := "Prize taken successfully",
                   preauthToken := if wasUnregistered then preauthToken.token else "" }, s)

/-- `RouletteService.TakePrize`. -/
def takePrize (s : RouState) (preauthTokenStr : String) (reqRouletteId : Nat)
    (ctx : ReqCtx) (now : Int) : Except RouErr (TakePrizeRespM × RouState) :=
  match resolveSpinToken s preauthTokenStr ctx now with
  | .error e => .error e
  | .ok (preauthToken, s) =>
    let wasUnregistered := preauthToken.userUUID == none
    let s :=
      match ctx.sessionId, ctx.ipAddress with
      | some sid, some _ => createOrUpdateUserBySession s sid
      | _, _ => s
    takePrizeCore s preauthToken wasUnregistered reqRouletteId ctx now

/-- `PostgresRouletteRepository.UpdatePreauthTokenUserUUID`: an unconditional
`UPDATE roulette_preauth_token SET user_uuid = $1 WHERE token = $2`, subject
only to the partial unique index on `(user_uuid, roulette_config_id)` from
migration 017. -/
def updatePreauthTokenUserUUID (s : RouState) (token userUUID : String) :
    Except RouErr RouState :=
  match getPreauthTokenRow s token with
  | none => .error .linkTokenNotFound
  | some target =>
    if s.tokens.any
        (fun t => t.id != target.id && t.userUUID == some userUUID &&
          t.configId == target.configId) then
      .error .linkUniqueViolation
    else
      let newTokens :=
        s.tokens.map
          (fun t => if t.id == target.id then { t with userUUID := some userUUID } else t)
      .ok { s with tokens := newTokens }

/-- `RouletteService.LinkPreauthTokenToUser` forwards to the repository. -/
def linkPreauthTokenToUser (s : RouState) (token userUUID : String) :
    Except RouErr RouState :=
  updatePreauthTokenUserUUID s token userUUID

/-- The bet used in the concrete reconciliation scenarios: a settled winning
pump bet of 5 (open 2000, close 2010). -/
def c4Bet : Bet :=
  { id := 1, userId := "u1", side := "pump", sum := 5, pair := "ETH/USDT",
    timeframe := 60, openPrice := 2000, closePrice := some 2010, openTime := 0,
    closeTime := some 60000 }

/-- The bet used in the concrete settlement scenarios: open at 0 ms,
timeframe 60 s, not yet settled. -/
def c3Bet : Bet :=
  { id := 1, userId := "u1", side := "pump", sum := 5, pair := "ETH/USDT",
    timeframe := 60, openPrice := 2000, closePrice := none, openTime := 0,
    closeTime := none }

/-! ### Concrete scenario data for the event prize claims -/

def c8Event : Event := { id := "e1", startTime := 0, deadline := 1000, tags := "competition" }

def c8Rows : List BetRatingRow :=
  [ { userUUID := "u1", points := 100, gotPrizeId := none, betId := some 1,
      description := "", createdAt := 500 },
    { userUUID := "u2", points := 50, gotPrizeId := none, betId := some 2,
      description := "", createdAt := 500 } ]

def c8PrizeValues : List PrizeValue :=
  [ { id := 7, eventId := "e1", value := 10000000, label := "first", segmentId := none } ]

def c8UserEvents : List UserEventRow :=
  [ { userUUID := "u2", eventId := "e1", hasPriseStatus := none, prizeValueId := none,
      prizeTakenStatus := false } ]

/-! ### Concrete scenario data for the roulette claims -/

/-- The seeded startup config: `(on_start, "startup", 3, true)` with id 1. -/
def startupConfig : RouletteConfig :=
  { id := 1, rtype := "on_start", eventId := "startup", maxSpins := 3, isActive := true }

/-- The startup prize values of the spec scenario. -/
def startupPrizeValues : List PrizeValue :=
  [ { id := 7, eventId := "startup", value := 10000000, label := "0.01 ETH",
      segmentId := some "1" },
    { id := 8, eventId := "startup", value := 5000000, label := "0.005 ETH",
      segmentId := some "2" },
    { id := 9, eventId := "startup", value := 1000000, label := "0.001 ETH",
      segmentId := some "3" } ]

/-- A freshly created, unlinked, unused preauth token. -/
def freshToken : PreauthToken :=
  { id := 1, token := "tok1", userUUID := none, configId := 1, isUsed := false,
    expiresAt := 1000000000 }

def emptyCtx : ReqCtx := { sessionId := none, ipAddress := none, authHeader := "" }

/-- C2 scenario: a fresh preauth token against the startup config. -/
def c2State : RouState :=
  { configs := [startupConfig], tokens := [freshToken], roulettes := [],
    prizeValues := startupPrizeValues, prizes := [], ratingRows := [], users := [],
    eventRewards := [], nextTokenId := 2, nextRouletteId := 1, nextPrizeId := 1,
    nextUserNum := 1 }

/-- C7 scenario: the event's single prize value is labelled in USDT. -/
def usdtPrizeValue : PrizeValue :=
  { id := 7, eventId := "startup", value := 100, label := "100 USDT", segmentId := some "1" }

def c7State : RouState := { c2State with prizeValues := [usdtPrizeValue] }

/-- C1 scenario: the token derived from session "S1" and IP "1.2.3.4",
linked to user "u9" and already used by its three spins; the session row has
consumed all spins and stores the selected prize. -/
def c1Token : PreauthToken :=
  { id := 1, token := generateTokenFromSessionAndIP "S1" "1.2.3.4",
    userUUID := some "u9", configId := 1, isUsed := true, expiresAt := 1000000000 }

def c1Roulette : Roulette :=
  { id := 1, configId := 1, preauthTokenId := 1, spinNumber := 3,
    prize := some "10000000", prizeTaken := false, srPrizeValueId := some 7,
    srPrizeValue := some 10000000, srPrizeLabel := some "0.01 ETH",
    srSegmentId := some "1", prizeTakenAt := none }

def c1State : RouState :=
  { c2State with tokens := [c1Token], roulettes := [c1Roulette] }

def c1Ctx : ReqCtx :=
  { sessionId := some "S1", ipAddress := some "1.2.3.4", authHeader := "" }

/-- C6 scenario: the single token is linked to user "u1". -/
def c6State : RouState :=
  { c2State with tokens := [{ freshToken with userUUID := some "u1" }] }

/-! ### Structural lemmas about the digest -/

theorem beBytes_length (n x : Nat) : (SHA256.beBytes n x).length = n := by
  induction n generalizing x with
  | zero => rfl
  | succ n ih => simp [SHA256.beBytes, ih]

theorem digestBytes_length (st : SHA256.Hash8) : (SHA256.digestBytes st).length = 32 := by
  simp [SHA256.digestBytes, beBytes_length]

theorem sha256_length (msg : List Nat) : (SHA256.sha256 msg).length = 32 := by
  simp [SHA256.sha256, digestBytes_length]

theorem hexEncode_length (bytes : List Nat) :
    (hexEncode bytes).length = 2 * bytes.length := by
  simp only [hexEncode, String.length]
  induction bytes with
  | nil => rfl
  | cons b bs ih =>
    simp only [List.flatMap_cons, List.length_append, ih]
    simp [hexByte]
    omega

theorem hexChars_getD_mem (k : Nat) (hk : k < 16) : hexChars.getD k '0' ∈ hexChars := by
  interval_cases k <;> decide

theorem hexByte_subset (b : Nat) : ∀ c ∈ hexByte b, c ∈ hexChars := by
  intro c hc
  simp only [hexByte, List.mem_cons, List.not_mem_nil, or_false] at hc
  rcases hc with h | h
  · subst h
    exact hexChars_getD_mem _ (by omega)
  · subst h
    exact hexChars_getD_mem _ (by omega)

theorem hexEncode_chars (bytes : List Nat) :
    ∀ c ∈ (hexEncode bytes).data, c ∈ hexChars := by
  intro c hc
  simp only [hexEncode, String.mk, List.mem_flatMap] at hc
  obtain ⟨b, _, hb⟩ := hc
  exact hexByte_subset b c hb

/-- Sanity anchor for the SHA-256 embedding: the spec's concrete scenario
token `sha256("S1:1.2.3.4")`, checked against the standard digest value. -/
theorem generateToken_concrete_value :
    generateTokenFromSessionAndIP "S1" "1.2.3.4"
      = "c00f0974a4cf69d5c9b32f614630244c30af42f40385fa4f252604225be5ccca" := by
  decide

/-- C9: for all inputs, `derive_token` returns the lowercase hexadecimal
encoding of the SHA-256 hash of `"<session_id>:<ip>"`; it is a pure function
(the same application always denotes the same value), and the token is a
64-character string over the lowercase hex alphabet. -/
theorem C9_derive_token_sha256_hex64 (s i : String) :
    generateTokenFromSessionAndIP s i
        = hexEncode (SHA256.sha256 (utf8Bytes (s ++ ":" ++ i)))
      ∧ (generateTokenFromSessionAndIP s i).length = 64
      ∧ ∀ c ∈ (generateTokenFromSessionAndIP s i).data, c ∈ hexChars := by
  refine ⟨rfl, ?_, hexEncode_chars _⟩
  show (hexEncode (SHA256.sha256 (utf8Bytes (s ++ ":" ++ i)))).length = 64
  rw [hexEncode_length, sha256_length]

/-! ### Ledger lemmas -/

theorem processPrizesStep_skip (m total : Int) (p : Prize) (h : p.awardedAt ≤ m) :
    processPrizesStep (some m) total p = total := by
  simp [processPrizesStep, h]

theorem processPrizes_foldl_all_skipped (m : Int) :
    ∀ (prizes : List Prize), (∀ p ∈ prizes, p.awardedAt ≤ m) →
      ∀ acc : Int, prizes.foldl (processPrizesStep (some m)) acc = acc
  | [], _, _ => rfl
  | p :: ps, h, acc => by
    rw [List.foldl_cons, processPrizesStep_skip m acc p (h p (by simp))]
    exact processPrizes_foldl_all_skipped m ps
      (fun q hq => h q (List.mem_cons_of_mem _ hq)) acc

theorem processPrizes_all_skipped (prizes : List Prize) (m : Int)
    (h : ∀ p ∈ prizes, p.awardedAt ≤ m) : processPrizes prizes (some m) = 0 :=
  processPrizes_foldl_all_skipped m prizes h 0

theorem processBetsStep_skip (m ct total : Int) (b : Bet) (hb : b.closeTime = some ct)
    (h : ct ≤ m) : processBetsStep (some m) total b = total := by
  simp [processBetsStep, hb, h]

theorem processBets_foldl_all_skipped (m : Int) :
    ∀ (bets : List Bet), (∀ b ∈ bets, ∃ ct, b.closeTime = some ct ∧ ct ≤ m) →
      ∀ acc : Int, bets.foldl (processBetsStep (some m)) acc = acc
  | [], _, _ => rfl
  | b :: bs, h, acc => by
    obtain ⟨ct, hct, hle⟩ := h b (by simp)
    rw [List.foldl_cons, processBetsStep_skip m ct acc b hct hle]
    exact processBets_foldl_all_skipped m bs
      (fun q hq => h q (List.mem_cons_of_mem _ hq)) acc

theorem processBets_all_skipped (bets : List Bet) (m : Int)
    (h : ∀ b ∈ bets, ∃ ct, b.closeTime = some ct ∧ ct ≤ m) :
    processBets bets (some m) = 0 :=
  processBets_foldl_all_skipped m bets h 0

theorem getMaxCreatedAt_append_self (rows : List RatingRow) (r : RatingRow) :
    ∃ m, getMaxCreatedAt (rows ++ [r]) r.userUUID = some m ∧ r.createdAt ≤ m := by
  unfold getMaxCreatedAt
  have hmem : r.createdAt ∈
      (((rows ++ [r]).filter fun x => x.userUUID = r.userUUID).map fun x => x.createdAt) := by
    simp [List.filter_append]
  cases hL : (((rows ++ [r]).filter fun x => x.userUUID = r.userUUID).map
      fun x => x.createdAt).max? with
  | none =>
    rw [List.max?_eq_none_iff] at hL
    rw [hL] at hmem
    cases hmem
  | some m =>
    refine ⟨m, rfl, ?_⟩
    haveI : Std.Antisymm (fun x1 x2 : Int => x1 ≤ x2) :=
      ⟨fun h1 h2 => le_antisymm h1 h2⟩
    have hiff := (List.max?_eq_some_iff (fun a => le_refl a) (fun a b => max_choice a b)
      (fun a b c => max_le_iff)).mp hL
    exact hiff.2 _ hmem

/-- A characterization of one reconciliation run: it appends at most one
aggregate row, and appends exactly when the prize part or bet part is
positive and their sum is positive. -/
theorem collectPrizesAndBets_characterization (rows : List RatingRow) (user : String)
    (prizes : List Prize) (bets : List Bet) (now : Int) :
    collectPrizesAndBets rows user prizes bets now =
      (if (0 < processPrizes (getPrizesByUserID prizes user) (getMaxCreatedAt rows user)
            ∨ 0 < processBets (getWinningBetsByUser bets user) (getMaxCreatedAt rows user))
          ∧ 0 < processPrizes (getPrizesByUserID prizes user) (getMaxCreatedAt rows user)
              + processBets (getWinningBetsByUser bets user) (getMaxCreatedAt rows user)
       then rows ++ [⟨user,
              processPrizes (getPrizesByUserID prizes user) (getMaxCreatedAt rows user)
                + processBets (getWinningBetsByUser bets user) (getMaxCreatedAt rows user),
              RatingSource.betBonus,
              reconciliationDescription
                (processPrizes (getPrizesByUserID prizes user) (getMaxCreatedAt rows user)
                  + processBets (getWinningBetsByUser bets user) (getMaxCreatedAt rows user))
                (processPrizes (getPrizesByUserID prizes user) (getMaxCreatedAt rows user))
                (processBets (getWinningBetsByUser bets user) (getMaxCreatedAt rows user)),
              now⟩]
       else rows) := by
  simp only [collectPrizesAndBets, addPoints]
  by_cases hc : 0 < processPrizes (getPrizesByUserID prizes user) (getMaxCreatedAt rows user)
      ∨ 0 < processBets (getWinningBetsByUser bets user) (getMaxCreatedAt rows user)
  · by_cases ht : processPrizes (getPrizesByUserID prizes user) (getMaxCreatedAt rows user)
        + processBets (getWinningBetsByUser bets user) (getMaxCreatedAt rows user) ≤ 0
    · rw [if_pos hc, if_pos ht, if_neg (fun h => absurd h.2 (not_lt.mpr ht))]
    · rw [if_pos hc, if_neg ht, if_pos ⟨hc, not_le.mp ht⟩]
  · rw [if_neg hc, if_neg (fun h => hc h.1)]

theorem processBets_none_eq_sum (bets : List Bet) :
    ∀ acc : Int, bets.foldl (processBetsStep none) acc
      = acc + (bets.map (fun b => betPointsOf b.sum)).sum := by
  induction bets with
  | nil => intro acc; simp
  | cons b bs ih =>
    intro acc
    rw [List.foldl_cons]
    have hstep : processBetsStep none acc b = acc + betPointsOf b.sum := by
      simp [processBetsStep]
    rw [hstep, ih]
    simp [add_assoc]

/-- C4 (counterexample): reconciling a user with one new winning bet of
`sum = 5` and an empty ledger appends a single row carrying `5 * 10⁹` points —
not a row with `points = +sum = 5` (multiplier 1) as the claim states; the
row's schema carries only a source tag and free-text description, no `bet_id`
reference. -/
theorem C4_counterexample_points_scaled :
    (collectPrizesAndBets [] "u1" [] [c4Bet] 100000).map (fun r => r.points) = [5000000000]
      ∧ (5000000000 : Int) ≠ 5 := by
  decide

/-- C4 (amended): for every user, one reconciliation run appends at most one
aggregate `bet_bonus` ledger row, whose points are the prize total plus the
bet total, where each winning bet newer than the cursor contributes
`int64(sum × 10⁹)` points (not `+sum`); no per-bet row and no bet reference
is written, and nothing is appended unless the parts are positive. -/
theorem C4_amended_single_aggregate_row (rows : List RatingRow) (user : String)
    (prizes : List Prize) (bets : List Bet) (now : Int) :
    collectPrizesAndBets rows user prizes bets now =
      (if (0 < processPrizes (getPrizesByUserID prizes user) (getMaxCreatedAt rows user)
            ∨ 0 < processBets (getWinningBetsByUser bets user) (getMaxCreatedAt rows user))
          ∧ 0 < processPrizes (getPrizesByUserID prizes user) (getMaxCreatedAt rows user)
              + processBets (getWinningBetsByUser bets user) (getMaxCreatedAt rows user)
       then rows ++ [⟨user,
              processPrizes (getPrizesByUserID prizes user) (getMaxCreatedAt rows user)
                + processBets (getWinningBetsByUser bets user) (getMaxCreatedAt rows user),
              RatingSource.betBonus,
              reconciliationDescription
                (processPrizes (getPrizesByUserID prizes user) (getMaxCreatedAt rows user)
                  + processBets (getWinningBetsByUser bets user) (getMaxCreatedAt rows user))
                (processPrizes (getPrizesByUserID prizes user) (getMaxCreatedAt rows user))
                (processBets (getWinningBetsByUser bets user) (getMaxCreatedAt rows user)),
              now⟩]
       else rows)
      ∧ processBets (getWinningBetsByUser bets user) none
          = ((getWinningBetsByUser bets user).map (fun b => betPointsOf b.sum)).sum := by
  refine ⟨collectPrizesAndBets_characterization rows user prizes bets now, ?_⟩
  simpa using processBets_none_eq_sum (getWinningBetsByUser bets user) 0

/-- C5: reconciliation is idempotent. If every prize of the user was awarded
no later than the wall time of the first run and every winning bet of the
user carries a close time no later than that wall time, then a second run
right after the first appends no further ledger rows: every such prize and
bet falls at or before the new cursor and is skipped, and a non-positive
total inserts nothing. -/
theorem C5_reconcile_idempotent (rows : List RatingRow) (user : String)
    (prizes : List Prize) (bets : List Bet) (now1 now2 : Int)
    (hp : ∀ p ∈ getPrizesByUserID prizes user, p.awardedAt ≤ now1)
    (hb : ∀ b ∈ getWinningBetsByUser bets user, ∃ ct, b.closeTime = some ct ∧ ct ≤ now1) :
    collectPrizesAndBets (collectPrizesAndBets rows user prizes bets now1) user prizes bets now2
      = collectPrizesAndBets rows user prizes bets now1 := by
  rw [collectPrizesAndBets_characterization rows user prizes bets now1]
  by_cases hcond : (0 < processPrizes (getPrizesByUserID prizes user) (getMaxCreatedAt rows user)
        ∨ 0 < processBets (getWinningBetsByUser bets user) (getMaxCreatedAt rows user))
      ∧ 0 < processPrizes (getPrizesByUserID prizes user) (getMaxCreatedAt rows user)
          + processBets (getWinningBetsByUser bets user) (getMaxCreatedAt rows user)
  · rw [if_pos hcond]
    rw [collectPrizesAndBets_characterization]
    obtain ⟨m, hm, hle⟩ := getMaxCreatedAt_append_self rows
      ⟨user,
        processPrizes (getPrizesByUserID prizes user) (getMaxCreatedAt rows user)
          + processBets (getWinningBetsByUser bets user) (getMaxCreatedAt rows user),
        RatingSource.betBonus,
        reconciliationDescription
          (processPrizes (getPrizesByUserID prizes user) (getMaxCreatedAt rows user)
            + processBets (getWinningBetsByUser bets user) (getMaxCreatedAt rows user))
          (processPrizes (getPrizesByUserID prizes user) (getMaxCreatedAt rows user))
          (processBets (getWinningBetsByUser bets user) (getMaxCreatedAt rows user)),
        now1⟩
    dsimp only at hm hle
    rw [hm]
    rw [processPrizes_all_skipped _ m (fun p hp2 => le_trans (hp p hp2) hle)]
    rw [processBets_all_skipped _ m
      (fun b hb2 => (hb b hb2).elim (fun ct hct => ⟨ct, hct.1, le_trans hct.2 hle⟩))]
    norm_num
  · rw [if_neg hcond]
    rw [collectPrizesAndBets_characterization, if_neg hcond]

/-- C5 (witness): the idempotence theorem applied to the concrete
one-winning-bet scenario. -/
theorem C5_reconcile_idempotent_witness :
    collectPrizesAndBets (collectPrizesAndBets [] "u1" [] [c4Bet] 100000) "u1" [] [c4Bet] 200000
      = collectPrizesAndBets [] "u1" [] [c4Bet] 100000 :=
  C5_reconcile_idempotent [] "u1" [] [c4Bet] 100000 200000
    (by decide)
    (by decide)

theorem totalPoints_append_single (rows : List RatingRow) (r : RatingRow) (u : String) :
    totalPoints (rows ++ [r]) u
      = totalPoints rows u + (if r.userUUID = u then r.points else 0) := by
  simp only [totalPoints, List.filter_append, List.map_append, List.sum_append]
  by_cases h : r.userUUID = u <;> simp [h, List.filter]

theorem mem_addPoints (rows : List RatingRow) (u : String) (pts : Int)
    (src : RatingSource) (d : String) (now : Int) (r : RatingRow)
    (hr : r ∈ addPoints rows u pts src d now) :
    r ∈ rows ∨ (0 < pts ∧ r = ⟨u, pts, src, d, now⟩) := by
  unfold addPoints at hr
  by_cases h : pts ≤ 0
  · rw [if_pos h] at hr; exact .inl hr
  · rw [if_neg h] at hr
    rcases List.mem_append.mp hr with h1 | h1
    · exact .inl h1
    · exact .inr ⟨not_le.mp h, by simpa using h1⟩

theorem totalPoints_addPoints_ge (rows : List RatingRow) (u : String) (pts : Int)
    (src : RatingSource) (d : String) (now : Int) (u2 : String) :
    totalPoints rows u2 ≤ totalPoints (addPoints rows u pts src d now) u2 := by
  unfold addPoints
  by_cases h : pts ≤ 0
  · rw [if_pos h]
  · rw [if_neg h, totalPoints_append_single]
    dsimp only
    have hpos : 0 < pts := not_le.mp h
    split
    · omega
    · omega

theorem applyAddPoints_pos :
    ∀ (calls : List AddPointsCall) (rows : List RatingRow),
      (∀ r ∈ rows, 0 < r.points) → ∀ r ∈ applyAddPoints rows calls, 0 < r.points
  | [], rows, h => by simpa [applyAddPoints] using h
  | c :: cs, rows, h => by
    have h2 : ∀ r ∈ addPoints rows c.userUUID c.points c.source c.description c.now,
        0 < r.points := by
      intro r hr
      rcases mem_addPoints _ _ _ _ _ _ _ hr with h1 | ⟨hpts, hrf⟩
      · exact h r h1
      · rw [hrf]; exact hpts
    simpa [applyAddPoints, List.foldl_cons] using applyAddPoints_pos cs _ h2

theorem applyAddPoints_total_mono :
    ∀ (calls : List AddPointsCall) (rows : List RatingRow) (u2 : String),
      totalPoints rows u2 ≤ totalPoints (applyAddPoints rows calls) u2
  | [], _, _ => le_refl _
  | c :: cs, rows, u2 => by
    have h1 := totalPoints_addPoints_ge rows c.userUUID c.points c.source c.description c.now u2
    have h2 := applyAddPoints_total_mono cs
      (addPoints rows c.userUUID c.points c.source c.description c.now) u2
    simpa [applyAddPoints, List.foldl_cons] using le_trans h1 h2

/-- C10: `AddPoints` with non-positive points inserts no rating row and
returns without error; therefore, starting from a table whose rows all carry
strictly positive points, after any sequence of `AddPoints` calls every row
still carries strictly positive points, and every user's ledger total is
non-decreasing. -/
theorem C10_addPoints_nonpositive_noop (rows : List RatingRow) (u : String) (pts : Int)
    (src : RatingSource) (d : String) (now : Int) (calls : List AddPointsCall)
    (hpts : pts ≤ 0) (hrows : ∀ r ∈ rows, 0 < r.points) :
    addPoints rows u pts src d now = rows
      ∧ (∀ r ∈ applyAddPoints rows calls, 0 < r.points)
      ∧ ∀ u2, totalPoints rows u2 ≤ totalPoints (applyAddPoints rows calls) u2 :=
  ⟨by simp [addPoints, hpts],
   applyAddPoints_pos calls rows hrows,
   fun u2 => applyAddPoints_total_mono calls rows u2⟩

/-- C10 (witness): the `AddPoints` no-op and invariants at a concrete input. -/
theorem C10_addPoints_nonpositive_noop_witness :
    addPoints [] "u1" (-3) RatingSource.betBonus "d" 5 = []
      ∧ (∀ r ∈ applyAddPoints [] [⟨"u1", 7, RatingSource.betBonus, "d", 5⟩], 0 < r.points)
      ∧ ∀ u2, totalPoints [] u2
          ≤ totalPoints (applyAddPoints [] [⟨"u1", 7, RatingSource.betBonus, "d", 5⟩]) u2 :=
  C10_addPoints_nonpositive_noop [] "u1" (-3) RatingSource.betBonus "d" 5
    [⟨"u1", 7, RatingSource.betBonus, "d", 5⟩] (by decide) (by simp)

/-- C3 (counterexample): the scheduler settles the bet (open 0 ms,
timeframe 60 s) at wall time 100000 ms and stores `close_time = 100000`, not
`open_time + timeframe = 60000`; and after the opportunistic path has already
settled the bet at (2010, 60000), a late scheduler wake-up overwrites both
fields — `close_price` is written twice. -/
theorem C3_counterexample_wallclock_overwrite :
    ((schedulerCloseBet [c3Bet] 1 (some 2010) 100000).map fun b => b.closeTime) = [some 100000]
      ∧ (100000 : Int) ≠ 0 + 60 * 1000
      ∧ ((applySettleOps [c3Bet]
            [.status 1 "u1" (some 2010) 70000, .sched 1 (some 2005) 100000]).map
          fun b => (b.closePrice, b.closeTime)) = [(some 2005, some 100000)] := by
  decide

theorem mem_updateBetClosePrice (bets : List Bet) (betID : Nat) (price : Rat) (t : Int)
    (b2 : Bet) (h : b2 ∈ updateBetClosePrice bets betID price t) :
    (b2 ∈ bets) ∨ ∃ b ∈ bets, b.id = betID ∧
      b2 = { b with closePrice := some price, closeTime := some t } := by
  simp only [updateBetClosePrice, List.mem_map] at h
  obtain ⟨b, hb, hbe⟩ := h
  by_cases hid : b.id = betID
  · right
    refine ⟨b, hb, hid, ?_⟩
    rw [← hbe]
    simp [hid]
  · left
    rw [← hbe]
    simp [hid]
    exact hb

/-- C3 (amended): the two settlement paths differ. The opportunistic path in
`get_bet_status` writes only when the looked-up bet still has no close price,
and every row it changes receives `close_time = open_time + timeframe`
(seconds, stored as ms). The scheduler path stamps `close_time` with the wall
clock at settlement and updates the row unconditionally, without re-checking
`close_price` — so `close_price` is not written at most once. Bet ids are
assumed unique (the table's primary key). -/
theorem C3_amended_settlement_paths (bets : List Bet) (betID : Nat) (user : String)
    (price : Rat) (now : Int)
    (huniq : ∀ b1 ∈ bets, ∀ b2 ∈ bets, b1.id = b2.id → b1 = b2) :
    (∀ b2 ∈ getBetStatusSettle bets betID user (some price) now,
        b2 ∈ bets ∨ (b2.closePrice = some price
          ∧ b2.closeTime = some (b2.openTime + b2.timeframe * 1000)))
      ∧ (∀ b0, bets.find? (fun b => b.id == betID && b.userId == user) = some b0 →
          b0.closePrice ≠ none → getBetStatusSettle bets betID user (some price) now = bets)
      ∧ (∀ b2 ∈ schedulerCloseBet bets betID (some price) now,
          b2 ∈ bets ∨ b2.closeTime = some now)
      ∧ (∀ b ∈ bets, b.id = betID →
          { b with closePrice := some price, closeTime := some now }
            ∈ schedulerCloseBet bets betID (some price) now) := by
  refine ⟨?_, ?_, ?_, ?_⟩
  · intro b2 hb2
    unfold getBetStatusSettle at hb2
    cases hfind : bets.find? (fun b => b.id == betID && b.userId == user) with
    | none =>
      rw [hfind] at hb2
      dsimp only at hb2
      exact .inl hb2
    | some b0 =>
      rw [hfind] at hb2
      dsimp only at hb2
      have hb0mem : b0 ∈ bets := List.mem_of_find?_eq_some hfind
      have hb0pred := List.find?_some hfind
      simp only [Bool.and_eq_true, beq_iff_eq] at hb0pred
      by_cases hcond : b0.openTime + b0.timeframe * 1000 < now ∧ b0.closePrice = none
      · rw [if_pos hcond] at hb2
        rcases mem_updateBetClosePrice _ _ _ _ _ hb2 with h | ⟨b, hbmem, hbid, hbe⟩
        · exact .inl h
        · right
          have hbb0 : b = b0 := huniq b hbmem b0 hb0mem (by rw [hbid, hb0pred.1])
          subst hbb0
          rw [hbe]
          constructor
          · rfl
          · rfl
      · rw [if_neg hcond] at hb2
        exact .inl hb2
  · intro b0 hfind hcp
    unfold getBetStatusSettle
    rw [hfind]
    dsimp only
    rw [if_neg (fun hc => hcp hc.2)]
  · intro b2 hb2
    unfold schedulerCloseBet at hb2
    rcases mem_updateBetClosePrice _ _ _ _ _ hb2 with h | ⟨b, _, _, hbe⟩
    · exact .inl h
    · right
      rw [hbe]
  · intro b hb hid
    unfold schedulerCloseBet updateBetClosePrice
    refine List.mem_map.mpr ⟨b, hb, ?_⟩
    simp [hid]

/-- C3 (witness): the amended settlement statement at the concrete bet. -/
theorem C3_amended_settlement_paths_witness :
    (∀ b2 ∈ getBetStatusSettle [c3Bet] 1 "u1" (some 2010) 70000,
        b2 ∈ [c3Bet] ∨ (b2.closePrice = some 2010
          ∧ b2.closeTime = some (b2.openTime + b2.timeframe * 1000)))
      ∧ (∀ b0, [c3Bet].find? (fun b => b.id == 1 && b.userId == "u1") = some b0 →
          b0.closePrice ≠ none → getBetStatusSettle [c3Bet] 1 "u1" (some 2010) 70000 = [c3Bet])
      ∧ (∀ b2 ∈ schedulerCloseBet [c3Bet] 1 (some 2010) 70000,
          b2 ∈ [c3Bet] ∨ b2.closeTime = some 70000)
      ∧ (∀ b ∈ [c3Bet], b.id = 1 →
          { b with closePrice := some 2010, closeTime := some 70000 }
            ∈ schedulerCloseBet [c3Bet] 1 (some 2010) 70000) :=
  C3_amended_settlement_paths [c3Bet] 1 "u1" 2010 70000 (by decide)

/-- C8 (counterexample): event "e1" has exactly one configured PrizeValue
(`K = 1`), and user "u2" sits at position 2 of the window leaderboard. The
claim's rule (`top-K` with `K = |prize_values|`) gives `has_prise = false`,
but the code queries the top-3 and writes `has_prise_status = true` (with no
prize value assigned). -/
theorem C8_counterexample_topK :
    updateUserEventPrizeStatus "u2" "e1" [c8Event] c8UserEvents c8Rows c8PrizeValues 1000
        = .ok ("updated",
            [ { userUUID := "u2", eventId := "e1", hasPriseStatus := some true,
                prizeValueId := none, prizeTakenStatus := false } ])
      ∧ specHasPriseTopK "u2" c8Rows 0 1000 c8PrizeValues = false := by
  decide

theorem findUserPrizeLoop_eq (user : String) (pvs : List PrizeValue)
    (hpv : ¬ pvs.length = 0) :
    ∀ (lb : List (String × Int)) (start : Nat),
      findUserPrizeLoop user pvs lb start =
        match List.findIdx? (fun e => e.1 == user) lb start with
        | none => .ok (false, none)
        | some k => .ok (true, ((sortPrizeValuesDesc pvs).get? k).map (fun pv => pv.id))
  | [], start => by simp [findUserPrizeLoop, List.findIdx?]
  | e :: rest, start => by
    unfold findUserPrizeLoop
    by_cases he : e.1 = user
    · rw [if_neg (by simp [he])]
      rw [if_neg hpv]
      have hfi : List.findIdx? (fun x => x.1 == user) (e :: rest) start = some start := by
        rw [List.findIdx?_cons]
        simp [he]
      rw [hfi]
      by_cases hlen : (sortPrizeValuesDesc pvs).length ≤ start
      · rw [if_pos hlen]
        have hg : (sortPrizeValuesDesc pvs)[start]? = none :=
          List.getElem?_eq_none hlen
        simp [hg]
      · rw [if_neg hlen]
    · rw [if_pos (by simp [he])]
      have hfi : List.findIdx? (fun x => x.1 == user) (e :: rest) start
          = List.findIdx? (fun x => x.1 == user) rest (start + 1) := by
        rw [List.findIdx?_cons]
        simp [he]
      rw [hfi]
      exact findUserPrizeLoop_eq user pvs hpv rest (start + 1)

/-- C8 (amended): after the deadline, while `has_prise_status` is unresolved
and at least one PrizeValue is configured, `update_prize_status` writes
`has_prise_status = true` exactly when the user appears in the top-3 of
`bet_points_leaderboard(start, deadline, 3)` — the limit is the constant 3,
not `K = |prize_values|` — and assigns the PrizeValue at the user's 0-based
leaderboard position under descending-value order, or no prize value at all
when that position is beyond the configured prize list. -/
theorem C8_amended_top3_constant (userUUID eventId : String) (events : List Event)
    (userEvents : List UserEventRow) (rows : List BetRatingRow)
    (prizeValues : List PrizeValue) (now : Int) (event : Event) (ue : UserEventRow)
    (hu : ¬ userUUID = "") (he : ¬ eventId = "")
    (hev : events.find? (fun e => e.id == eventId) = some event)
    (hnd : ¬ now < event.deadline)
    (hue : userEvents.find? (fun r => r.userUUID == userUUID && r.eventId == eventId) = some ue)
    (hst : ue.hasPriseStatus = none)
    (hpv : ¬ prizeValues.length = 0) :
    updateUserEventPrizeStatus userUUID eventId events userEvents rows prizeValues now
      = .ok ("updated", userEvents.map (fun r =>
          if r.userUUID == userUUID && r.eventId == eventId && r.hasPriseStatus == none then
            { r with
              hasPriseStatus := some
                ((getBetPointsLeaderboard rows event.startTime event.deadline 3).any
                  (fun x => x.1 == userUUID)),
              prizeValueId :=
                match List.findIdx? (fun x => x.1 == userUUID)
                    (getBetPointsLeaderboard rows event.startTime event.deadline 3) with
                | none => none
                | some k => ((sortPrizeValuesDesc prizeValues).get? k).map (fun pv => pv.id) }
          else r)) := by
  unfold updateUserEventPrizeStatus
  rw [if_neg hu, if_neg he, hev]
  dsimp only
  rw [if_neg hnd, hue]
  dsimp only
  rw [if_neg (by simp [hst])]
  rw [findUserPrizeLoop_eq userUUID prizeValues hpv]
  cases hidx : List.findIdx? (fun x => x.1 == userUUID)
      (getBetPointsLeaderboard rows event.startTime event.deadline 3) with
  | none =>
    have hany : (getBetPointsLeaderboard rows event.startTime event.deadline 3).any
        (fun x => x.1 == userUUID) = false := by
      rw [← List.findIdx?_isSome, hidx]
      rfl
    simp only [hidx, hany]
  | some k =>
    have hany : (getBetPointsLeaderboard rows event.startTime event.deadline 3).any
        (fun x => x.1 == userUUID) = true := by
      rw [← List.findIdx?_isSome, hidx]
      rfl
    simp only [hidx, hany]

/-- C8 (witness): the amended statement at the concrete one-prize event. -/
theorem C8_amended_top3_constant_witness :
    updateUserEventPrizeStatus "u2" "e1" [c8Event] c8UserEvents c8Rows c8PrizeValues 1000
      = .ok ("updated", c8UserEvents.map (fun r =>
          if r.userUUID == "u2" && r.eventId == "e1" && r.hasPriseStatus == none then
            { r with
              hasPriseStatus := some
                ((getBetPointsLeaderboard c8Rows c8Event.startTime c8Event.deadline 3).any
                  (fun x => x.1 == "u2")),
              prizeValueId :=
                match List.findIdx? (fun x => x.1 == "u2")
                    (getBetPointsLeaderboard c8Rows c8Event.startTime c8Event.deadline 3) with
                | none => none
                | some k => ((sortPrizeValuesDesc c8PrizeValues).get? k).map (fun pv => pv.id) }
          else r)) :=
  C8_amended_top3_constant "u2" "e1" [c8Event] c8UserEvents c8Rows c8PrizeValues 1000
    c8Event ⟨"u2", "e1", none, none, false⟩
    (by decide) (by decide) (by decide) (by decide) (by decide) (by decide) (by decide)

/-- C2 (code bug): against the seeded startup config (max_spins = 3, prizes
configured), the first spin presenting the fresh token succeeds with
spinsLeft = 2 but marks the token used; the second spin presenting the same
token is rejected by `ValidatePreauthToken` with "preauth token already
used" — not, as the claim and the repository's own curl documentation state,
a third successful spin followed by `MaxSpinsReached` on the fourth. -/
theorem C2_second_spin_rejected_used_token :
    ∃ resp1 st1, spin c2State "tok1" 1 emptyCtx 100 0 = .ok (resp1, st1)
      ∧ resp1.spinsLeft = 2
      ∧ (∀ t ∈ st1.tokens, t.isUsed = true)
      ∧ spin st1 "tok1" 1 emptyCtx 200 0 = Except.error RouErr.tokenUsed := by
  refine ⟨_, _, rfl, ?_, ?_, ?_⟩
  · decide
  · decide
  · decide

/-- C7 (counterexample): spinning on an event whose only prize value is
"100 USDT" (value 100) returns reward type "eth" with amount 100/10⁹ — not
type "usdt" with amount 100 as the claim requires for USDT-denominated
prizes. -/
theorem C7_counterexample_usdt_reported_as_eth :
    ∃ resp st1, spin c7State "tok1" 1 emptyCtx 100 0 = .ok (resp, st1)
      ∧ resp.label = "100 USDT"
      ∧ resp.rewardType = "eth"
      ∧ ¬ resp.rewardType = "usdt"
      ∧ resp.rewardAmount = (100 : Rat) / 1000000000
      ∧ ¬ ((100 : Rat) / 1000000000 = 100) := by
  refine ⟨_, _, rfl, ?_, ?_, ?_, ?_, ?_⟩
  · decide
  · decide
  · decide
  · rfl
  · norm_num

theorem resolveOrCreateToken_fields (s : RouState) (sid ip : String) (now : Int)
    (tok : PreauthToken) (s2 : RouState)
    (h : resolveOrCreateToken s sid ip now = .ok (tok, s2)) :
    s2.prizeValues = s.prizeValues ∧ s2.ratingRows = s.ratingRows
      ∧ s2.prizes = s.prizes ∧ s2.roulettes = s.roulettes ∧ s2.configs = s.configs := by
  unfold resolveOrCreateToken at h
  dsimp only at h
  cases hg : getPreauthTokenRow s (generateTokenFromSessionAndIP sid ip) with
  | some t =>
    rw [hg] at h
    cases h
    exact ⟨rfl, rfl, rfl, rfl, rfl⟩
  | none =>
    rw [hg] at h
    cases hc : getRouletteConfigByType s "on_start" "startup" with
    | none =>
      rw [hc] at h
      cases h
    | some config =>
      rw [hc] at h
      cases h
      exact ⟨rfl, rfl, rfl, rfl, rfl⟩

theorem resolveSpinToken_fields (s : RouState) (ts : String) (ctx : ReqCtx) (now : Int)
    (tok : PreauthToken) (s2 : RouState)
    (h : resolveSpinToken s ts ctx now = .ok (tok, s2)) :
    s2.prizeValues = s.prizeValues ∧ s2.ratingRows = s.ratingRows
      ∧ s2.prizes = s.prizes ∧ s2.roulettes = s.roulettes ∧ s2.configs = s.configs := by
  unfold resolveSpinToken at h
  split at h
  · split at h
    · exact resolveOrCreateToken_fields _ _ _ _ _ _ h
    · cases h
  · split at h
    · cases h
    · cases h
      exact ⟨rfl, rfl, rfl, rfl, rfl⟩

theorem createOrUpdateUserBySession_fields (s : RouState) (sid : String) :
    (createOrUpdateUserBySession s sid).prizeValues = s.prizeValues
      ∧ (createOrUpdateUserBySession s sid).ratingRows = s.ratingRows
      ∧ (createOrUpdateUserBySession s sid).prizes = s.prizes
      ∧ (createOrUpdateUserBySession s sid).roulettes = s.roulettes
      ∧ (createOrUpdateUserBySession s sid).configs = s.configs
      ∧ (createOrUpdateUserBySession s sid).tokens = s.tokens := by
  unfold createOrUpdateUserBySession
  split <;> exact ⟨rfl, rfl, rfl, rfl, rfl, rfl⟩

theorem spinAdvanceRoulette_fields (s : RouState) (config : RouletteConfig)
    (tok : PreauthToken) (r : Roulette) (s2 : RouState)
    (h : spinAdvanceRoulette s config tok = .ok (r, s2)) :
    s2.prizeValues = s.prizeValues ∧ s2.ratingRows = s.ratingRows
      ∧ s2.prizes = s.prizes ∧ s2.tokens = s.tokens := by
  unfold spinAdvanceRoulette at h
  split at h
  · split at h
    · cases h
    · split at h
      · cases h
      · cases h
        exact ⟨rfl, rfl, rfl, rfl⟩
  · cases h
    exact ⟨rfl, rfl, rfl, rfl⟩

theorem mem_getPrizeValuesByEventID (s : RouState) (ev : String) (pv : PrizeValue)
    (h : pv ∈ getPrizeValuesByEventID s ev) : pv ∈ s.prizeValues := by
  unfold getPrizeValuesByEventID at h
  rw [List.mem_insertionSort] at h
  exact List.mem_of_mem_filter h

/-- C7 (amended): every successful spin returns reward type "eth" with
amount equal to the selected prize value divided by 10⁹, regardless of the
prize's denomination; the "usdt" reward variant does not occur. -/
theorem C7_amended_reward_always_eth_scaled (s : RouState) (ts : String) (rid : Nat) (ctx : ReqCtx)
    (now : Int) (choice : Nat) (resp : SpinRespM) (s2 : RouState)
    (h : spin s ts rid ctx now choice = .ok (resp, s2)) :
    resp.rewardType = "eth"
    ∧ ∃ pv ∈ s.prizeValues, resp.label = pv.label
        ∧ resp.rewardAmount = (pv.value : Rat) / 1000000000 := by
  unfold spin at h
  cases hres : resolveSpinToken s ts ctx now with
  | error e =>
    rw [hres] at h
    cases h
  | ok ps =>
    rw [hres] at h
    obtain ⟨tok, s1⟩ := ps
    have hs1 := resolveSpinToken_fields s ts ctx now tok s1 hres
    dsimp only at h
    unfold spinCore at h
    cases hcfg : getRouletteConfigByID s1 tok.configId with
    | none =>
      rw [hcfg] at h
      cases h
    | some config =>
      rw [hcfg] at h
      dsimp only at h
      split at h
      · cases h
      · split at h
        · cases h
        · split at h
          · cases h
          · cases hadv : spinAdvanceRoulette s1 config tok with
            | error e =>
              rw [hadv] at h
              cases h
            | ok rs =>
              rw [hadv] at h
              obtain ⟨roulette, s3⟩ := rs
              have hs3 := spinAdvanceRoulette_fields s1 config tok roulette s3 hadv
              dsimp only at h
              split at h
              · cases h
              case _ hne =>
                cases h
                refine ⟨rfl, ?_⟩
                refine ⟨_, ?_, rfl, rfl⟩
                have hmem : (getPrizeValuesByEventID (markPreauthTokenAsUsed s3 tok.id)
                      config.eventId).get
                    ⟨choice % (getPrizeValuesByEventID (markPreauthTokenAsUsed s3 tok.id)
                        config.eventId).length,
                      Nat.mod_lt _ (Nat.pos_of_ne_zero hne)⟩
                    ∈ getPrizeValuesByEventID (markPreauthTokenAsUsed s3 tok.id)
                        config.eventId :=
                  List.get_mem _ _ _
                have hmem2 := mem_getPrizeValuesByEventID _ _ _ hmem
                have hpres : (markPreauthTokenAsUsed s3 tok.id).prizeValues
                    = s.prizeValues := by
                  show s3.prizeValues = s.prizeValues
                  rw [hs3.1, hs1.1]
                rw [hpres] at hmem2
                exact hmem2

/-- C7 (witness): the amended reward statement at the concrete USDT-prize
state. -/
theorem C7_amended_reward_always_eth_scaled_witness :
    ∃ resp s2, spin c7State "tok1" 1 emptyCtx 100 0 = .ok (resp, s2)
      ∧ (resp.rewardType = "eth"
        ∧ ∃ pv ∈ c7State.prizeValues, resp.label = pv.label
            ∧ resp.rewardAmount = (pv.value : Rat) / 1000000000) :=
  ⟨_, _, rfl, C7_amended_reward_always_eth_scaled c7State "tok1" 1 emptyCtx 100 0 _ _ rfl⟩

/-- C1 (counterexample): a successful first-time take_prize on a completed
session inserts exactly one Prize row and leaves the rating ledger unchanged
— no ledger entry with the prize's points is appended, contrary to the
claim. -/
theorem C1_counterexample_no_ledger_append :
    ∃ resp s2, takePrize c1State "" 1 c1Ctx 5000 = .ok (resp, s2)
      ∧ resp.prize = "10000000"
      ∧ s2.prizes.length = c1State.prizes.length + 1
      ∧ s2.ratingRows = c1State.ratingRows
      ∧ ¬ s2.ratingRows.length = c1State.ratingRows.length + 1 := by
  refine ⟨_, _, rfl, ?_, ?_, ?_, ?_⟩
  · decide
  · decide
  · decide
  · decide

theorem takePrizeCore_effects (s : RouState) (tok : PreauthToken) (wu : Bool)
    (rid : Nat) (ctx : ReqCtx) (now : Int) (resp : TakePrizeRespM) (s2 : RouState)
    (h : takePrizeCore s tok wu rid ctx now = .ok (resp, s2)) :
    s2.ratingRows = s.ratingRows
    ∧ (resp.message = "Prize taken successfully" →
        s2.prizes.length = s.prizes.length + 1
        ∧ ∃ r ∈ s2.roulettes, r.prizeTaken = true ∧ r.prizeTakenAt = some now
            ∧ r.prize = some resp.prize)
    ∧ (resp.message = "Prize already taken" →
        s2.prizes = s.prizes ∧ s2.roulettes = s.roulettes) := by
  unfold takePrizeCore at h
  cases hcfg : getRouletteConfigByID s tok.configId with
  | none => rw [hcfg] at h; cases h
  | some config =>
    rw [hcfg] at h
    dsimp only at h
    split at h
    · cases h
    · split at h
      · cases h
      · split at h
        · cases h
        · cases hrou : getRouletteByPreauthToken s tok.id with
          | none => rw [hrou] at h; cases h
          | some roulette =>
            rw [hrou] at h
            dsimp only at h
            split at h
            · -- prizeTaken branch
              split at h
              · -- prize some: ok already-taken
                cases h
                refine ⟨rfl, ?_, ?_⟩
                · intro hmsg
                  exact absurd hmsg (by simp)
                · intro _
                  exact ⟨rfl, rfl⟩
              · cases h
            · split at h
              · cases h
              · -- success path
                split at h
                · cases h
                case _ userID huser =>
                  cases h
                  refine ⟨rfl, ?_, ?_⟩
                  · intro _
                    constructor
                    · show (s.prizes ++ [_]).length = s.prizes.length + 1
                      simp
                    · refine ⟨{ roulette with
                          prize := some (takePrizeValueOf s config roulette).1,
                          prizeTaken := true, prizeTakenAt := some now }, ?_, rfl, rfl, rfl⟩
                      show _ ∈ (takePrizeRow _ roulette.id _ now).roulettes
                      unfold takePrizeRow
                      dsimp only
                      refine List.mem_map.mpr ⟨roulette, ?_, ?_⟩
                      · have : roulette ∈ s.roulettes := List.mem_of_find?_eq_some hrou
                        exact this
                      · simp
                  · intro hmsg
                    exact absurd hmsg (by simp)

theorem takePrizeCore_effects_rel (s X : RouState) (tok : PreauthToken) (wu : Bool)
    (rid : Nat) (ctx : ReqCtx) (now : Int) (resp : TakePrizeRespM) (s2 : RouState)
    (hX : X.ratingRows = s.ratingRows ∧ X.prizes = s.prizes ∧ X.roulettes = s.roulettes)
    (h : takePrizeCore X tok wu rid ctx now = .ok (resp, s2)) :
    s2.ratingRows = s.ratingRows
    ∧ (resp.message = "Prize taken successfully" →
        s2.prizes.length = s.prizes.length + 1
        ∧ ∃ r ∈ s2.roulettes, r.prizeTaken = true ∧ r.prizeTakenAt = some now
            ∧ r.prize = some resp.prize)
    ∧ (resp.message = "Prize already taken" →
        s2.prizes = s.prizes ∧ s2.roulettes = s.roulettes) := by
  obtain ⟨h1, h2, h3⟩ := takePrizeCore_effects X tok wu rid ctx now resp s2 h
  refine ⟨by rw [h1, hX.1], ?_, ?_⟩
  · intro hm
    exact ⟨by rw [(h2 hm).1, hX.2.1], (h2 hm).2⟩
  · intro hm
    exact ⟨by rw [(h3 hm).1, hX.2.1], by rw [(h3 hm).2, hX.2.2]⟩

/-- C1 (amended): a successful first-time take_prize inserts exactly one
Prize row and marks the session row prize_taken = true with prize_taken_at
set to the call's wall time; it appends no ledger entry (the roulette
service has no rating dependency, so the rating table is untouched on every
path), and the idempotent replay returns success without touching prizes or
sessions. The writes are separate statements, not one transaction. -/
theorem C1_amended_take_prize_effects (s : RouState) (ts : String) (rid : Nat) (ctx : ReqCtx)
    (now : Int) (resp : TakePrizeRespM) (s2 : RouState)
    (h : takePrize s ts rid ctx now = .ok (resp, s2)) :
    s2.ratingRows = s.ratingRows
    ∧ (resp.message = "Prize taken successfully" →
        s2.prizes.length = s.prizes.length + 1
        ∧ ∃ r ∈ s2.roulettes, r.prizeTaken = true ∧ r.prizeTakenAt = some now
            ∧ r.prize = some resp.prize)
    ∧ (resp.message = "Prize already taken" →
        s2.prizes = s.prizes ∧ s2.roulettes = s.roulettes) := by
  unfold takePrize at h
  cases hres : resolveSpinToken s ts ctx now with
  | error e => rw [hres] at h; cases h
  | ok ps =>
    rw [hres] at h
    obtain ⟨tok, s1⟩ := ps
    have hs1 := resolveSpinToken_fields s ts ctx now tok s1 hres
    dsimp only at h
    cases hsid : ctx.sessionId with
    | none =>
      rw [hsid] at h
      cases hip : ctx.ipAddress with
      | none =>
        rw [hip] at h
        exact takePrizeCore_effects_rel s s1 tok _ rid ctx now resp s2
          ⟨hs1.2.1, hs1.2.2.1, hs1.2.2.2.1⟩ h
      | some ip =>
        rw [hip] at h
        exact takePrizeCore_effects_rel s s1 tok _ rid ctx now resp s2
          ⟨hs1.2.1, hs1.2.2.1, hs1.2.2.2.1⟩ h
    | some sid =>
      rw [hsid] at h
      cases hip : ctx.ipAddress with
      | none =>
        rw [hip] at h
        exact takePrizeCore_effects_rel s s1 tok _ rid ctx now resp s2
          ⟨hs1.2.1, hs1.2.2.1, hs1.2.2.2.1⟩ h
      | some ip =>
        rw [hip] at h
        have hcu := createOrUpdateUserBySession_fields s1 sid
        exact takePrizeCore_effects_rel s (createOrUpdateUserBySession s1 sid) tok _ rid ctx
          now resp s2
          ⟨by rw [hcu.2.1, hs1.2.1], by rw [hcu.2.2.1, hs1.2.2.1],
           by rw [hcu.2.2.2.1, hs1.2.2.2.1]⟩ h

/-- C6 (counterexample): re-linking the token (already linked to "u1") to a
different user "u2" does not fail with Conflict — the UPDATE succeeds and
overwrites the stored user id with "u2". -/
theorem C6_counterexample_overwrite_no_conflict :
    ∃ s2, linkPreauthTokenToUser c6State "tok1" "u2" = .ok s2
      ∧ s2.tokens.map (fun t => t.userUUID) = [some "u2"]
      ∧ ¬ (some "u2" = some ("u1" : String)) := by
  refine ⟨_, rfl, ?_, ?_⟩
  · decide
  · decide

/-- C6 (amended): with no other token holding `(u, config)` (the partial
unique index), link_to_user(t, u) for the already-linked user u succeeds as
an exact no-op, and link_to_user(t, u2) for any user — including u2 ≠ the
stored user — succeeds and overwrites the token's stored user id; no
Conflict is raised by the code itself. -/
theorem C6_amended_link_overwrites (s : RouState) (tok u : String) (target : PreauthToken)
    (hfind : getPreauthTokenRow s tok = some target)
    (hnoconf : s.tokens.any
        (fun t => t.id != target.id && t.userUUID == some u &&
          t.configId == target.configId) = false)
    (huniq : ∀ t1 ∈ s.tokens, ∀ t2 ∈ s.tokens, t1.id = t2.id → t1 = t2) :
    (target.userUUID = some u → linkPreauthTokenToUser s tok u = .ok s)
    ∧ ∃ s2, linkPreauthTokenToUser s tok u = .ok s2
        ∧ { target with userUUID := some u } ∈ s2.tokens
        ∧ ∀ t ∈ s2.tokens, t.id ≠ target.id → t ∈ s.tokens := by
  have htmem : target ∈ s.tokens := List.mem_of_find?_eq_some hfind
  constructor
  · intro hlinked
    unfold linkPreauthTokenToUser updatePreauthTokenUserUUID
    rw [hfind]
    dsimp only
    rw [if_neg (by simp [hnoconf])]
    have hmapid : s.tokens.map
        (fun t => if t.id == target.id then { t with userUUID := some u } else t)
        = s.tokens := by
      have : ∀ t ∈ s.tokens,
          (if t.id == target.id then { t with userUUID := some u } else t) = t := by
        intro t ht
        by_cases hid : t.id = target.id
        · have : t = target := huniq t ht target htmem hid
          subst this
          simp [← hlinked]
        · simp [hid]
      rw [List.map_congr_left this]
      exact List.map_id s.tokens
    rw [hmapid]
  · refine ⟨{ s with tokens := s.tokens.map (fun t =>
        if t.id == target.id then { t with userUUID := some u } else t) }, ?_, ?_, ?_⟩
    · unfold linkPreauthTokenToUser updatePreauthTokenUserUUID
      rw [hfind]
      dsimp only
      rw [if_neg (by simp [hnoconf])]
    · refine List.mem_map.mpr ⟨target, htmem, ?_⟩
      simp
    · intro t ht hne
      rcases List.mem_map.mp ht with ⟨t0, ht0, hte⟩
      by_cases hid : t0.id = target.id
      · rw [← hte] at hne
        simp [hid] at hne
      · rw [← hte]
        simp [hid]
        exact ht0

/-- C1 (witness): the amended take-prize effects at the concrete completed
session. -/
theorem C1_amended_take_prize_effects_witness :
    ∃ resp s2, takePrize c1State "" 1 c1Ctx 5000 = .ok (resp, s2)
      ∧ (s2.ratingRows = c1State.ratingRows
        ∧ (resp.message = "Prize taken successfully" →
            s2.prizes.length = c1State.prizes.length + 1
            ∧ ∃ r ∈ s2.roulettes, r.prizeTaken = true ∧ r.prizeTakenAt = some 5000
                ∧ r.prize = some resp.prize)
        ∧ (resp.message = "Prize already taken" →
            s2.prizes = c1State.prizes ∧ s2.roulettes = c1State.roulettes)) :=
  ⟨_, _, rfl, C1_amended_take_prize_effects c1State "" 1 c1Ctx 5000 _ _ rfl⟩

/-- C6 (witness): the amended link statement at the concrete linked token. -/
theorem C6_amended_link_overwrites_witness :
    (({ freshToken with userUUID := some "u1" } : PreauthToken).userUUID = some "u2" →
        linkPreauthTokenToUser c6State "tok1" "u2" = .ok c6State)
    ∧ ∃ s2, linkPreauthTokenToUser c6State "tok1" "u2" = .ok s2
        ∧ { ({ freshToken with userUUID := some "u1" } : PreauthToken) with
              userUUID := some "u2" } ∈ s2.tokens
        ∧ ∀ t ∈ s2.tokens,
            t.id ≠ ({ freshToken with userUUID := some "u1" } : PreauthToken).id →
              t ∈ c6State.tokens :=
  C6_amended_link_overwrites c6State "tok1" "u2"
    { freshToken with userUUID := some "u1" } (by decide) (by decide) (by decide)
